import Mathlib

/-!
Verification development for the RAID-5 stripe I/O engine in
`module/bdev/raid/raid5.c`.  The definitions below are shallow embeddings of
the C functions they are named after; machine integers are modelled as `Nat`
or `Int`, buffers as block-indexed functions `Nat → Nat` (one `Nat` per block,
XOR on blocks standing for the bytewise XOR of the block contents), and the
intrusive lists of the C code as Lean lists.
-/

set_option autoImplicit false

namespace Raid5

/-! ## Status codes and `errno_to_status` -/

/-- The subset of `spdk_bdev_io_status` used by the raid5 module. -/
inductive IoStatus where
  | success
  | nomem
  | failed
  deriving DecidableEq, Repr

/-- POSIX `ENOMEM`, the value compared against in `errno_to_status`. -/
def ENOMEM : Nat := 12

/-- POSIX `EINVAL`, returned (negated) by `raid5_chunk_map_iov` on a short iov. -/
def EINVAL : Nat := 22

/-- Embedding of `errno_to_status`: the error code is first replaced by its
absolute value (`err = abs(err)`), then mapped through a switch with cases
`0 → SUCCESS`, `ENOMEM → NOMEM`, default `FAILED`. -/
def errno_to_status (err : Int) : IoStatus :=
  if err.natAbs = 0 then IoStatus.success
  else if err.natAbs = ENOMEM then IoStatus.nomem
  else IoStatus.failed

/-! ## Parity placement (raid5_handle_stripe line 1234, raid5_get_data_chunk,
raid5_chunk_data_index) -/

/-- Embedding of `raid5_stripe_data_chunks_num`: the number of data chunks is
`num_base_bdevs - base_bdevs_max_degraded`. -/
def raid5_stripe_data_chunks_num (num_base_bdevs max_degraded : Nat) : Nat :=
  num_base_bdevs - max_degraded

/-- Position of the parity chunk in the `chunks` array, as computed by
`raid5_handle_stripe`: `raid5_stripe_data_chunks_num(raid_bdev) -
stripe->index % raid_bdev->num_base_bdevs`, with `base_bdevs_max_degraded = 1`
for raid5. -/
def parityChunkIdx (num_base_bdevs stripe_index : Nat) : Nat :=
  raid5_stripe_data_chunks_num num_base_bdevs 1 - stripe_index % num_base_bdevs

/-- Embedding of `raid5_get_data_chunk`: the member index of the data chunk
with data index `chunk_data_idx`, given the parity chunk position. -/
def raid5_get_data_chunk (p_chunk_idx chunk_data_idx : Nat) : Nat :=
  if chunk_data_idx < p_chunk_idx then chunk_data_idx else chunk_data_idx + 1

/-- Embedding of `raid5_chunk_data_index`: the data index of the member chunk
at position `idx`, given the parity chunk position. -/
def raid5_chunk_data_index (p_chunk_idx idx : Nat) : Nat :=
  if idx < p_chunk_idx then idx else idx - 1

/-! ## Stripe reclamation (`raid5_reclaim_stripes`) -/

/-- The fields of `struct stripe` relevant to reclamation: its index (the hash
key) and its reference count. -/
structure CacheStripe where
  index : Nat
  refs : Nat
  deriving DecidableEq, Repr

/-- Result of a reclamation walk: the return value of the function, the
stripes moved to the free list (in freeing order), the examined stripes that
were skipped because of a nonzero `refs`, and the not-examined remainder of
the active list. -/
structure ReclaimOut where
  reclaimed : Nat
  freed : List CacheStripe
  skipped : List CacheStripe
  rest : List CacheStripe
  deriving DecidableEq, Repr

/-- The reverse walk of `raid5_reclaim_stripes` over the active list (given
tail first, as `TAILQ_FOREACH_REVERSE_SAFE` visits it).  A stripe with
`refs > 0` is skipped (`continue`); a stripe with `refs == 0` is unlinked from
the active list, pushed to the free list and removed from the hash, and the
walk stops once `++reclaimed > to_reclaim`. -/
def reclaimGo (to_reclaim : Int) : List CacheStripe → Nat → ReclaimOut
  | [], n => ⟨n, [], [], []⟩
  | s :: tl, n =>
    if s.refs > 0 then
      let o := reclaimGo to_reclaim tl n
      ⟨o.reclaimed, o.freed, s :: o.skipped, o.rest⟩
    else if (n + 1 : Int) > to_reclaim then
      ⟨n + 1, [s], [], tl⟩
    else
      let o := reclaimGo to_reclaim tl (n + 1)
      ⟨o.reclaimed, s :: o.freed, o.skipped, o.rest⟩

/-- Embedding of `raid5_reclaim_stripes`: `to_reclaim = (RAID_MAX_STRIPES / 8)
- RAID_MAX_STRIPES + rte_hash_count(...)` (as a signed int), then the reverse
walk of the active list starting from `reclaimed = 0`. -/
def raid5_reclaim_stripes (max_stripes hash_count : Nat) (active_from_tail : List CacheStripe) :
    ReclaimOut :=
  let to_reclaim : Int := (max_stripes / 8 : Nat) - (max_stripes : Int) + hash_count
  reclaimGo to_reclaim active_from_tail 0

/-- The walk described by claim C4, word for word: stop after freeing the
target count `(MAX_STRIPES/8 - MAX_STRIPES + hash_count)`, or at the first
tail entry whose `ref_count > 0` (the first refused entry); return the number
of stripes reclaimed. -/
def reclaimClaimGo (target : Int) : List CacheStripe → Nat → Nat
  | [], n => n
  | s :: tl, n =>
    if s.refs > 0 then n
    else if (n + 1 : Int) = target then n + 1
    else reclaimClaimGo target tl (n + 1)

/-- Return value of the reclamation procedure exactly as claim C4 states it. -/
def reclaimClaimed (max_stripes hash_count : Nat) (active_from_tail : List CacheStripe) : Nat :=
  let target : Int := (max_stripes / 8 : Nat) - (max_stripes : Int) + hash_count
  reclaimClaimGo target active_from_tail 0

/-! ## Completion-call count of `raid5_complete_reconstructed_stripe_request` -/

/-- The fields of a chunk that decide the copy loop of
`raid5_complete_reconstructed_stripe_request`: the request block count,
whether it is the degraded chunk, whether its request type is
`CHUNK_PREREAD`, and the result `raid5_chunk_map_req_data` would return for
it (`0` on success). -/
structure ReconChunk where
  req_blocks : Nat
  is_degraded : Bool
  is_preread : Bool
  map_ret : Int
  deriving DecidableEq, Repr

/-- Number of calls to `raid5_complete_stripe_request` made by
`raid5_complete_reconstructed_stripe_request`, following its control flow over
the data chunks: in the copy loop a chunk with `req_blocks > 0` that is not
the degraded chunk and was preread calls `raid5_chunk_map_req_data`, and on a
nonzero return calls `raid5_abort_stripe_request` (one completion) WITHOUT
returning from the function; the final `raid5_complete_stripe_request` at the
end of the function is always reached (one more completion). -/
def raid5_complete_reconstructed_complete_calls (data_chunks : List ReconChunk) : Nat :=
  data_chunks.foldl
    (fun acc c =>
      if c.req_blocks > 0 ∧ c.is_degraded = false ∧ c.is_preread = true ∧ c.map_ret ≠ 0 then
        acc + 1
      else acc) 0
  + 1

/-! ## Write planning (`raid5_stripe_write`, non-degraded path) -/

/-- Immutable geometry of the array: `num_base_bdevs`, `strip_size` in blocks
and the logical block length in bytes. -/
structure Geom where
  n : Nat
  strip : Nat
  blocklen : Nat
  deriving DecidableEq, Repr

/-- The two parity-update strategies of the write path. -/
inductive WriteKind where
  | rmw
  | rcw
  deriving DecidableEq, Repr

/-- Member indices of the data chunks, in the order `FOR_EACH_DATA_CHUNK`
visits them: increasing member index, skipping the parity position. -/
def dataIdxList (n p : Nat) : List Nat := (List.range n).filter (fun i => i ≠ p)

/-- The parity chunk request window set at the top of `raid5_stripe_write`:
the single intersected data chunk's range when `first_data_chunk ==
last_data_chunk`, the whole strip otherwise.  `req i` gives
`(req_offset, req_blocks)` of the chunk at member index `i` as initialized by
`raid5_handle_stripe`; `first` and `last` are the member indices of
`first_data_chunk` and `last_data_chunk`. -/
def writeParityReq (g : Geom) (first last : Nat) (req : Nat → Nat × Nat) : Nat × Nat :=
  if first = last then req first else (0, g.strip)

/-- The vote loop of `raid5_stripe_write`: for each data chunk,
`preread_balance++` when `req_blocks < parity req_blocks` and
`preread_balance--` when `req_blocks > 0`. -/
def writeBalance (g : Geom) (p first last : Nat) (req : Nat → Nat × Nat) : Int :=
  (dataIdxList g.n p).foldl
    (fun b i =>
      let b1 := if (req i).2 < (writeParityReq g first last req).2 then b + 1 else b
      if (req i).2 > 0 then b1 - 1 else b1) 0

/-- Strategy selection of `raid5_stripe_write`: RMW exactly when the final
balance is positive, RCW otherwise. -/
def writeKind (g : Geom) (p first last : Nat) (req : Nat → Nat × Nat) : WriteKind :=
  if writeBalance g p first last req > 0 then WriteKind.rmw else WriteKind.rcw

/-- The preread assignment loop of `raid5_stripe_write` for the chunk at
member index `i`.  For RMW every chunk (parity included, whose request fields
were just set to the parity window) prereads exactly its request range.  For
RCW the parity chunk prereads nothing; in the single-data-chunk case a
touched chunk prereads nothing and an untouched chunk prereads the parity
window; otherwise a chunk with nonzero `req_offset` prereads `[0, req_offset)`
and a chunk starting at offset 0 prereads `[req_blocks, strip_size)`. -/
def writePreread (g : Geom) (p first last : Nat) (req : Nat → Nat × Nat) (i : Nat) :
    Nat × Nat :=
  match writeKind g p first last req with
  | WriteKind.rmw =>
    if i = p then writeParityReq g first last req else req i
  | WriteKind.rcw =>
    if i = p then (0, 0)
    else if first = last then
      if (req i).2 > 0 then (0, 0) else writeParityReq g first last req
    else
      if (req i).1 > 0 then (0, (req i).1)
      else ((req i).2, g.strip - (req i).2)

/-- Number of chunk prereads submitted by the planning loop: each chunk with
`preread_blocks > 0` goes through `raid5_submit_chunk_request`, which
increments `stripe_req->remaining`. -/
def writeRemaining (g : Geom) (p first last : Nat) (req : Nat → Nat × Nat) : Nat :=
  ((List.range g.n).filter (fun i => (writePreread g p first last req i).2 > 0)).length

/-- The inline-compute condition at the end of `raid5_stripe_write`: when
`stripe_req->remaining == 0` after the planning loop, the chosen
`chunk_requests_complete_cb` is invoked immediately, before any data or
parity write is submitted (writes are only issued by
`raid5_stripe_write_submit`, which the compute callback calls last). -/
def writeInlineCompute (g : Geom) (p first last : Nat) (req : Nat → Nat × Nat) : Bool :=
  writeRemaining g p first last req == 0

/-- The per-stripe vote exactly as claim C3 words it, over the list of data
chunk `req_blocks`: plus one when `req_blocks` is less than the parity
chunk's `req_blocks`, minus one when `req_blocks` is greater than zero. -/
def voteBalance (pBlocks : Nat) (dataReqBlocks : List Nat) : Int :=
  dataReqBlocks.foldl
    (fun b r => (if r < pBlocks then b + 1 else b) + (if r > 0 then -1 else 0)) 0

/-! ## Request splitting (`raid5_handle_stripe`, lines 1203-1219) -/

/-- The sub-requests `(stripe_offset, blocks, iov_offset)` into which
`raid5_handle_stripe` decomposes one call: a WRITE still untouched
(`base_bdev_io_remaining == blocks`) that is smaller than one strip and
extends past the next strip boundary is split at that boundary, the first
part handled by a recursive call and the remainder by the fall-through with
`iov_offset` advanced by the first part's byte length.  Every returned part
is built into its own stripe request and enqueued on the stripe. -/
def raid5_handle_stripe_parts (g : Geom) (remaining : Nat) (is_write : Bool)
    (stripe_offset blocks iov_offset : Nat) : List (Nat × Nat × Nat) :=
  if h : remaining = blocks ∧ is_write = true ∧ blocks < g.strip ∧
      g.strip - stripe_offset % g.strip < blocks then
    raid5_handle_stripe_parts g remaining is_write stripe_offset
      (g.strip - stripe_offset % g.strip) iov_offset ++
    [(stripe_offset + (g.strip - stripe_offset % g.strip),
      blocks - (g.strip - stripe_offset % g.strip),
      iov_offset + (g.strip - stripe_offset % g.strip) * g.blocklen)]
  else [(stripe_offset, blocks, iov_offset)]
termination_by blocks
decreasing_by exact h.2.2.2

/-! ## Stripe-acquisition backpressure (`raid5_submit_rw_request`,
`raid5_complete_stripe_request`, `raid5_io_channel_retry_request`) -/

/-- Embedding of `raid5_io_channel_retry_request`: pop the head wait entry of
the channel retry queue and invoke its callback, which resubmits the stored
raid_io. -/
def raid5_io_channel_retry_request (retry_queue : List Nat) : List Nat × Option Nat :=
  match retry_queue with
  | [] => ([], none)
  | w :: tl => (tl, some w)

/-- Outcome of the stripe-acquisition step of `raid5_submit_rw_request`: the
channel retry queue afterwards, the status (if any) reported upstream by this
step, and whether submission proceeded into `raid5_handle_stripe`. -/
structure SubmitOutcome where
  retry_queue : List Nat
  completed : Option IoStatus
  proceeded : Bool
  deriving DecidableEq, Repr

/-- Embedding of the stripe-acquisition branch of `raid5_submit_rw_request`:
when `raid5_get_stripe` returns NULL (hash miss, empty free list, nothing
reclaimable) the raid_io's wait entry is appended to the channel retry queue
and the function returns without completing anything; otherwise submission
proceeds into `raid5_handle_stripe`. -/
def raid5_submit_rw_acquire (stripe : Option Nat) (retry_queue : List Nat) (io : Nat) :
    SubmitOutcome :=
  match stripe with
  | none => ⟨retry_queue ++ [io], none, false⟩
  | some _ => ⟨retry_queue, none, true⟩

/-- Embedding of the retry-release step at the end of
`raid5_complete_stripe_request`: when the upstream raid_io fully completes
(`raid_bdev_io_complete_part` returned true) and the channel retry queue is
nonempty, one waiter is popped and resubmitted. -/
def raid5_complete_release_retry (all_parts_done : Bool) (retry_queue : List Nat) :
    List Nat × Option Nat :=
  if all_parts_done ∧ retry_queue ≠ [] then raid5_io_channel_retry_request retry_queue
  else (retry_queue, none)

/-! ## Chunk completion (`raid5_complete_chunk_request`) -/

/-- The request state that `raid5_complete_chunk_request` manipulates: the
remaining chunk-I/O counter and the request status. -/
structure ChunkRunState where
  remaining : Nat
  status : IoStatus
  deriving DecidableEq, Repr

/-- What a single chunk completion does after updating the state. -/
inductive ChunkAction where
  | noAction
  | computeCb
  | completeStripe
  deriving DecidableEq, Repr

/-- Embedding of `raid5_complete_chunk_request`: an unsuccessful chunk I/O
sets the request status to FAILED; `remaining` is then decremented, and only
when it reaches zero is anything else done: the planned
`chunk_requests_complete_cb` when the status is still SUCCESS, otherwise
`raid5_complete_stripe_request` directly (the compute step is skipped). -/
def raid5_complete_chunk_request_step (success : Bool) (st : ChunkRunState) :
    ChunkRunState × ChunkAction :=
  let st1 : ChunkRunState := if success then st else ⟨st.remaining, IoStatus.failed⟩
  let st2 : ChunkRunState := ⟨st1.remaining - 1, st1.status⟩
  if st2.remaining = 0 then
    if st2.status = IoStatus.success then (st2, ChunkAction.computeCb)
    else (st2, ChunkAction.completeStripe)
  else (st2, ChunkAction.noAction)

/-- A run of chunk completions in arrival order, collecting the action taken
at each completion. -/
def runChunkCompletions (st : ChunkRunState) : List Bool → ChunkRunState × List ChunkAction
  | [] => (st, [])
  | e :: es =>
    let r1 := raid5_complete_chunk_request_step e st
    let r2 := runChunkCompletions r1.1 es
    (r2.1, r1.2 :: r2.2)

/-! ## Buffers and the write compute phase (`raid5_xor_iovs`,
`raid5_stripe_write_preread_complete_rmw`, `raid5_stripe_write_preread_complete`) -/

/-- A buffer viewed at block granularity: position ↦ block contents.  A block
is abstracted as one `Nat`, with `Nat.xor` standing for the bytewise XOR of
the block's bytes (`raid5_xor_buf` XORs the block word by word). -/
def Buf := Nat → Nat

/-- Embedding of `raid5_xor_iovs` at block granularity: XOR `len` blocks of
`src` starting at `srcOff` into `dst` starting at `dstOff`, leaving the rest
of `dst` unchanged.  The iovec cursor walk of the C code realizes exactly
this update on the underlying scatter-gather bytes. -/
def xorRange (dst : Buf) (dstOff : Nat) (src : Buf) (srcOff : Nat) (len : Nat) : Buf :=
  fun i =>
    if dstOff ≤ i ∧ i < dstOff + len then
      dst i ^^^ src (srcOff + (i - dstOff))
    else dst i

/-- The all-zero buffer produced by `raid5_memset_iovs(.., 0)`. -/
def zeroBuf : Buf := fun _ => 0

/-- A data chunk of a write stripe request as it enters the compute phase:
its request window and preread window (block offsets within the strip), the
strip's current on-disk contents `oldData` (indexed by strip offset; a
preread reads a slice of it into the chunk's scratch buffer starting at
buffer position 0), and the user data `newData` that
`raid5_chunk_map_req_data` rebinds the chunk's iovec to (indexed from 0;
entry `j` is destined for strip offset `req_offset + j`). -/
structure DataChunk where
  req_offset : Nat
  req_blocks : Nat
  preread_offset : Nat
  preread_blocks : Nat
  oldData : Buf
  newData : Buf

/-- Strip offset `x` lies in the chunk's request window. -/
def inReq (c : DataChunk) (x : Nat) : Prop :=
  c.req_offset ≤ x ∧ x < c.req_offset + c.req_blocks

/-- Strip offset `x` lies in the chunk's preread window. -/
def inPre (c : DataChunk) (x : Nat) : Prop :=
  c.preread_offset ≤ x ∧ x < c.preread_offset + c.preread_blocks

instance decInReq (c : DataChunk) (x : Nat) : Decidable (inReq c x) :=
  inferInstanceAs (Decidable (c.req_offset ≤ x ∧ x < c.req_offset + c.req_blocks))

instance decInPre (c : DataChunk) (x : Nat) : Decidable (inPre c x) :=
  inferInstanceAs (Decidable (c.preread_offset ≤ x ∧ x < c.preread_offset + c.preread_blocks))

/-- Contents of the chunk's strip after the write completes: the new data
over the request window, the old contents elsewhere. -/
def finalData (c : DataChunk) : Buf :=
  fun x => if inReq c x then c.newData (x - c.req_offset) else c.oldData x

/-- Bytewise XOR of the post-write contents of all data chunks at strip
offset `x`. -/
def xorFinalData (cs : List DataChunk) (x : Nat) : Nat :=
  cs.foldl (fun acc c => acc ^^^ finalData c x) 0

/-- Bytewise XOR of the pre-write contents of all data chunks at strip
offset `x`. -/
def xorOldData (cs : List DataChunk) (x : Nat) : Nat :=
  cs.foldl (fun acc c => acc ^^^ c.oldData x) 0

/-- One data chunk's step of `raid5_stripe_write_preread_complete_rmw` on the
parity buffer (buffer position `i` holds the parity block destined for strip
offset `p_chunk.req_offset + i`): chunks with `req_blocks == 0` are skipped;
otherwise the parity buffer at `dest_offset = req_offset - p_chunk.req_offset`
is XORed first with the chunk's preread buffer (the old data of its request
window, read to buffer position 0) and then, after
`raid5_chunk_map_req_data` rebinds the chunk's iovec to the user data, with
the new data. -/
def rmwChunk (pOff : Nat) (pb : Buf) (c : DataChunk) : Buf :=
  if c.req_blocks = 0 then pb
  else
    xorRange
      (xorRange pb (c.req_offset - pOff)
        (fun j => c.oldData (c.req_offset + j)) 0 c.req_blocks)
      (c.req_offset - pOff) c.newData 0 c.req_blocks

/-- The full RMW compute phase: the fold of `rmwChunk` over the data chunks,
starting from the preread parity buffer. -/
def rmwCompute (pOff : Nat) (cs : List DataChunk) (pb : Buf) : Buf :=
  cs.foldl (rmwChunk pOff) pb

/-- One data chunk's step of `raid5_stripe_write_preread_complete` (RCW): if
the chunk was preread, its preread buffer (old data of the preread window,
read to buffer position 0) is XORed into the parity buffer at
`preread_offset - p_chunk.req_offset`; if the chunk is written, the user
data is mapped in and XORed at `req_offset - p_chunk.req_offset`. -/
def rcwChunk (pOff : Nat) (pb : Buf) (c : DataChunk) : Buf :=
  let pb1 := if c.preread_blocks > 0 then
      xorRange pb (c.preread_offset - pOff)
        (fun j => c.oldData (c.preread_offset + j)) 0 c.preread_blocks
    else pb
  if c.req_blocks > 0 then
    xorRange pb1 (c.req_offset - pOff) c.newData 0 c.req_blocks
  else pb1

/-- The full RCW compute phase: the parity buffer is zeroed by
`raid5_memset_iovs` and the chunk contributions are folded in. -/
def rcwCompute (pOff : Nat) (cs : List DataChunk) : Buf :=
  cs.foldl (rcwChunk pOff) zeroBuf

/-- Per-chunk parity delta of the RMW pass at strip offset `x`: old XOR new
over the request window, zero elsewhere. -/
def rmwDelta (c : DataChunk) (x : Nat) : Nat :=
  if inReq c x then c.oldData x ^^^ c.newData (x - c.req_offset) else 0

/-- Per-chunk parity contribution of the RCW pass at strip offset `x`. -/
def rcwContrib (c : DataChunk) (x : Nat) : Nat :=
  (if inPre c x then c.oldData x else 0) ^^^
    (if inReq c x then c.newData (x - c.req_offset) else 0)

/-- XOR fold of the RMW deltas of all data chunks. -/
def rmwDeltaFold (cs : List DataChunk) (x : Nat) : Nat :=
  cs.foldl (fun acc c => acc ^^^ rmwDelta c x) 0

/-- XOR fold of the RCW contributions of all data chunks. -/
def rcwContribFold (cs : List DataChunk) (x : Nat) : Nat :=
  cs.foldl (fun acc c => acc ^^^ rcwContrib c x) 0

/-! ## Theorems -/

/-- C10: the internal error-to-status mapping is by absolute value: an error
code `e` yields SUCCESS iff `|e| = 0`, NOMEM iff `|e| = ENOMEM`, and FAILED
for every other value; in particular `-EINVAL` from iov mapping yields FAILED,
and opposite-signed codes of the same magnitude map to the same status. -/
theorem errno_to_status_spec (e : Int) :
    (errno_to_status e = IoStatus.success ↔ e.natAbs = 0) ∧
    (errno_to_status e = IoStatus.nomem ↔ e.natAbs = ENOMEM) ∧
    (e.natAbs ≠ 0 → e.natAbs ≠ ENOMEM → errno_to_status e = IoStatus.failed) ∧
    errno_to_status (-(EINVAL : Int)) = IoStatus.failed ∧
    errno_to_status (-e) = errno_to_status e := by
  refine ⟨?_, ?_, ?_, by decide, ?_⟩
  · unfold errno_to_status
    split
    · simp_all
    · split <;> simp_all
  · unfold errno_to_status
    split
    · simp_all [ENOMEM]
    · split <;> simp_all
  · intro h0 hm
    unfold errno_to_status
    simp [h0, hm]
  · unfold errno_to_status
    simp

/-- Witness for `errno_to_status_spec` at the concrete input `-12`. -/
theorem errno_to_status_spec_witness :
    (errno_to_status (-12) = IoStatus.nomem ↔ Int.natAbs (-12) = ENOMEM) ∧
    ((-12 : Int).natAbs ≠ 0 → (-12 : Int).natAbs ≠ ENOMEM →
      errno_to_status (-12) = IoStatus.failed) ∧
    errno_to_status (-(EINVAL : Int)) = IoStatus.failed := by
  have h := errno_to_status_spec (-12)
  exact ⟨h.2.1, h.2.2.1, h.2.2.2.1⟩

/-- C2: for a stripe request built against stripe index `s`, the parity
chunk's position in the chunks array equals `D - (s mod N)` with `D = N - 1`,
the data chunk with data index `k` sits at member index `k` when
`k < P(s)` and at `k + 1` otherwise, and a data chunk never occupies the
parity position. -/
theorem parity_placement_spec (n s k : Nat) :
    parityChunkIdx n s = (n - 1) - s % n ∧
    raid5_get_data_chunk (parityChunkIdx n s) k =
      (if k < parityChunkIdx n s then k else k + 1) ∧
    raid5_get_data_chunk (parityChunkIdx n s) k ≠ parityChunkIdx n s := by
  refine ⟨rfl, rfl, ?_⟩
  unfold raid5_get_data_chunk
  split <;> omega

/-- Witness for `parity_placement_spec` with `N = 3`, stripe index 1 and data
index 1: the parity chunk sits at position `2 - 1 % 3 = 1` and data index 1
maps to member index 2. -/
theorem parity_placement_spec_witness :
    parityChunkIdx 3 1 = (3 - 1) - 1 % 3 ∧
    raid5_get_data_chunk (parityChunkIdx 3 1) 1 =
      (if 1 < parityChunkIdx 3 1 then 1 else 1 + 1) ∧
    raid5_get_data_chunk (parityChunkIdx 3 1) 1 ≠ parityChunkIdx 3 1 :=
  parity_placement_spec 3 1 1

/-- C4 counterexample: with `MAX_STRIPES = 8`, `hash_count = 8` and the active
list (tail first) holding a stripe with `ref_count = 1` followed by a stripe
with `ref_count = 0`, the code skips the refused tail entry (`continue`) and
reclaims the next one, returning 1, while the walk described by the claim
stops at the first refused tail entry and reclaims nothing. -/
theorem raid5_reclaim_stripes_counterexample :
    (raid5_reclaim_stripes 8 8 [⟨0, 1⟩, ⟨1, 0⟩]).reclaimed = 1 ∧
    reclaimClaimed 8 8 [⟨0, 1⟩, ⟨1, 0⟩] = 0 ∧
    (raid5_reclaim_stripes 8 8 [⟨0, 1⟩, ⟨1, 0⟩]).reclaimed ≠
      reclaimClaimed 8 8 [⟨0, 1⟩, ⟨1, 0⟩] := by
  decide

/-- Helper: full characterization of the reclamation walk `reclaimGo`, proved
by induction over the active list. -/
theorem reclaimGo_spec (t : Int) (l : List CacheStripe) (n : Nat) :
    (reclaimGo t l n).reclaimed = (reclaimGo t l n).freed.length + n ∧
    (∀ s ∈ (reclaimGo t l n).freed, s.refs = 0) ∧
    (∀ s ∈ (reclaimGo t l n).skipped, s.refs > 0) ∧
    ((reclaimGo t l n).rest = [] ∨ ((reclaimGo t l n).reclaimed : Int) > t) ∧
    l.Perm ((reclaimGo t l n).freed ++ (reclaimGo t l n).skipped ++ (reclaimGo t l n).rest) := by
  induction l generalizing n with
  | nil => simp [reclaimGo]
  | cons s tl ih =>
    by_cases hr : s.refs > 0
    · have h := ih n
      simp only [reclaimGo, if_pos hr]
      refine ⟨h.1, h.2.1, ?_, h.2.2.2.1, ?_⟩
      · intro x hx
        rcases List.mem_cons.mp hx with h1 | h1
        · exact h1 ▸ hr
        · exact h.2.2.1 x h1
      · refine (List.Perm.cons s h.2.2.2.2).trans ?_
        simp only [List.append_assoc, List.cons_append]
        exact List.perm_middle.symm
    · by_cases ht : (n + 1 : Int) > t
      · simp only [reclaimGo, if_neg hr, if_pos ht]
        refine ⟨by simp [Nat.add_comm], ?_, by simp, Or.inr ht, by simp⟩
        intro x hx
        simp only [List.mem_singleton] at hx
        subst hx; omega
      · have h := ih (n + 1)
        simp only [reclaimGo, if_neg hr, if_neg ht]
        refine ⟨?_, ?_, h.2.2.1, h.2.2.2.1, ?_⟩
        · rw [h.1]; simp only [List.length_cons]; omega
        · intro x hx
          rcases List.mem_cons.mp hx with h1 | h1
          · subst h1; omega
          · exact h.2.1 x h1
        · simpa using List.Perm.cons s h.2.2.2.2

/-- Unfolding lemma for `raid5_reclaim_stripes`. -/
theorem raid5_reclaim_stripes_def (m hc : Nat) (l : List CacheStripe) :
    raid5_reclaim_stripes m hc l =
      reclaimGo ((m / 8 : Nat) - (m : Int) + hc) l 0 := rfl

/-- C4 amended: `raid5_reclaim_stripes` walks the active list from the tail,
SKIPPING every stripe whose `ref_count > 0`; each stripe with `ref_count = 0`
is removed from the hash, unlinked from the active list and pushed to the free
list; the walk stops as soon as the number reclaimed EXCEEDS the target count
`(MAX_STRIPES/8 - MAX_STRIPES + hash_count)` (so at least one eligible stripe
is reclaimed whenever the target is nonpositive and a reclaimable stripe
exists), or when the whole list has been walked; the return value is the
number of stripes reclaimed. -/
theorem raid5_reclaim_stripes_amended (m hc : Nat) (l : List CacheStripe) :
    (raid5_reclaim_stripes m hc l).reclaimed = (raid5_reclaim_stripes m hc l).freed.length ∧
    (∀ s ∈ (raid5_reclaim_stripes m hc l).freed, s.refs = 0) ∧
    (∀ s ∈ (raid5_reclaim_stripes m hc l).skipped, s.refs > 0) ∧
    ((raid5_reclaim_stripes m hc l).rest = [] ∨
      ((raid5_reclaim_stripes m hc l).reclaimed : Int) > (m / 8 : Nat) - (m : Int) + hc) ∧
    l.Perm ((raid5_reclaim_stripes m hc l).freed ++ (raid5_reclaim_stripes m hc l).skipped ++
      (raid5_reclaim_stripes m hc l).rest) := by
  simp only [raid5_reclaim_stripes_def]
  have h := reclaimGo_spec ((m / 8 : Nat) - (m : Int) + hc) l 0
  exact ⟨by rw [h.1, Nat.add_zero], h.2.1, h.2.2.1, h.2.2.2.1, h.2.2.2.2⟩

/-- Witness for `raid5_reclaim_stripes_amended` at the counterexample input:
entry `⟨1, 0⟩` is freed, entry `⟨0, 1⟩` is skipped, nothing is left
unexamined, and the return value is 1. -/
theorem raid5_reclaim_stripes_amended_witness :
    (raid5_reclaim_stripes 8 8 [⟨0, 1⟩, ⟨1, 0⟩]).reclaimed =
      (raid5_reclaim_stripes 8 8 [⟨0, 1⟩, ⟨1, 0⟩]).freed.length ∧
    (∀ s ∈ (raid5_reclaim_stripes 8 8 [⟨0, 1⟩, ⟨1, 0⟩]).freed, s.refs = 0) ∧
    (∀ s ∈ (raid5_reclaim_stripes 8 8 [⟨0, 1⟩, ⟨1, 0⟩]).skipped, s.refs > 0) := by
  have h := raid5_reclaim_stripes_amended 8 8 [⟨0, 1⟩, ⟨1, 0⟩]
  exact ⟨h.1, h.2.1, h.2.2.1⟩

/-- C9 (code bug): on the degraded-read completion path, if
`raid5_chunk_map_req_data` fails for one non-degraded preread data chunk
(e.g. its `realloc` returns NULL, ret = `-ENOMEM`),
`raid5_complete_reconstructed_stripe_request` calls
`raid5_complete_stripe_request` twice: once through
`raid5_abort_stripe_request` inside the copy loop (which does NOT return) and
once at the end of the function.  The claimed invariant requires exactly one
completion per stripe request. -/
theorem reconstructed_double_completion :
    raid5_complete_reconstructed_complete_calls
      [⟨4, false, true, -(ENOMEM : Int)⟩, ⟨4, true, false, 0⟩] = 2 := by
  decide

/-- C3: for a non-degraded write stripe request, the strategy is chosen by
the per-stripe vote over the data chunks (+1 when the chunk's `req_blocks` is
less than the parity chunk's `req_blocks`, -1 when it is greater than zero):
Read-Modify-Write is selected exactly when the final balance is positive, and
Reconstruct-Write otherwise (ties go to RCW). -/
theorem write_strategy_vote (g : Geom) (p first last : Nat) (req : Nat → Nat × Nat) :
    (writeKind g p first last req = WriteKind.rmw ↔
      voteBalance (writeParityReq g first last req).2
        ((dataIdxList g.n p).map (fun i => (req i).2)) > 0) ∧
    (writeKind g p first last req = WriteKind.rcw ↔
      ¬ voteBalance (writeParityReq g first last req).2
        ((dataIdxList g.n p).map (fun i => (req i).2)) > 0) := by
  have hb : writeBalance g p first last req =
      voteBalance (writeParityReq g first last req).2
        ((dataIdxList g.n p).map (fun i => (req i).2)) := by
    unfold writeBalance voteBalance
    rw [List.foldl_map]
    apply List.foldl_ext
    intro b i _
    dsimp only
    split_ifs <;> omega
  unfold writeKind
  rw [hb]
  by_cases hv : voteBalance (writeParityReq g first last req).2
      ((dataIdxList g.n p).map (fun i => (req i).2)) > 0
  · simp [hv]
  · simp [hv]

/-- Witness for `write_strategy_vote` at a concrete single-chunk write:
with `N = 3`, parity at position 2, only member 0 touched with 1 of 4 blocks,
the balance is `+1 - 1 + 1 = 1 > 0` and RMW is selected. -/
theorem write_strategy_vote_witness :
    (writeKind ⟨3, 4, 512⟩ 2 0 0 (fun i => if i = 0 then (1, 1) else (0, 0)) =
        WriteKind.rmw ↔
      voteBalance (writeParityReq ⟨3, 4, 512⟩ 0 0
          (fun i => if i = 0 then (1, 1) else (0, 0))).2
        ((dataIdxList 3 2).map
          (fun i => ((fun i => if i = 0 then (1, 1) else (0, 0)) i).2)) > 0) ∧
    (writeKind ⟨3, 4, 512⟩ 2 0 0 (fun i => if i = 0 then (1, 1) else (0, 0)) =
        WriteKind.rcw ↔
      ¬ voteBalance (writeParityReq ⟨3, 4, 512⟩ 0 0
          (fun i => if i = 0 then (1, 1) else (0, 0))).2
        ((dataIdxList 3 2).map
          (fun i => ((fun i => if i = 0 then (1, 1) else (0, 0)) i).2)) > 0) :=
  write_strategy_vote ⟨3, 4, 512⟩ 2 0 0 (fun i => if i = 0 then (1, 1) else (0, 0))

/-- C5: for a full-stripe write (every data chunk's `req_blocks` equals
`strip_size`; `first_data_chunk` and `last_data_chunk` are the data chunks
with data indices `0` and `D - 1 = n - 2`, as `raid5_handle_stripe` computes
for a request covering the whole stripe), the vote selects Reconstruct-Write,
no chunk is assigned `preread_blocks > 0`, zero preread I/Os are submitted,
and `remaining = 0` after the planning loop so the compute callback runs
immediately inline, before the data and parity writes (which only the compute
callback submits, via `raid5_stripe_write_submit`). -/
theorem full_stripe_write_rcw_inline (g : Geom) (p : Nat) (req : Nat → Nat × Nat)
    (hn : 3 ≤ g.n) (hp : p < g.n) (hs : 0 < g.strip)
    (hreq : ∀ i, i < g.n → i ≠ p → req i = (0, g.strip)) :
    writeKind g p (raid5_get_data_chunk p 0) (raid5_get_data_chunk p (g.n - 2)) req =
      WriteKind.rcw ∧
    (∀ i, i < g.n →
      (writePreread g p (raid5_get_data_chunk p 0) (raid5_get_data_chunk p (g.n - 2)) req i).2
        = 0) ∧
    writeRemaining g p (raid5_get_data_chunk p 0) (raid5_get_data_chunk p (g.n - 2)) req = 0 ∧
    writeInlineCompute g p (raid5_get_data_chunk p 0) (raid5_get_data_chunk p (g.n - 2)) req
      = true := by
  have hfl : raid5_get_data_chunk p 0 ≠ raid5_get_data_chunk p (g.n - 2) := by
    unfold raid5_get_data_chunk
    split <;> split <;> omega
  have hpar : writeParityReq g (raid5_get_data_chunk p 0) (raid5_get_data_chunk p (g.n - 2))
      req = (0, g.strip) := by
    unfold writeParityReq
    rw [if_neg hfl]
  have hmem : ∀ i ∈ dataIdxList g.n p, i < g.n ∧ i ≠ p := by
    intro i hi
    unfold dataIdxList at hi
    rw [List.mem_filter] at hi
    exact ⟨List.mem_range.mp hi.1, by simpa using hi.2⟩
  have hgen : ∀ (f : Int → Nat → Int) (l : List Nat) (a : Int),
      (∀ b : Int, ∀ i ∈ l, f b i = b - 1) → l.foldl f a = a - l.length := by
    intro f l
    induction l with
    | nil => intro a _; simp
    | cons x xs ih =>
      intro a hfx
      rw [List.foldl_cons, hfx a x (List.mem_cons_self x xs),
        ih _ (fun b i hi => hfx b i (List.mem_cons_of_mem x hi))]
      simp only [List.length_cons]
      push_cast
      ring
  have hbal : writeBalance g p (raid5_get_data_chunk p 0) (raid5_get_data_chunk p (g.n - 2))
      req = 0 - (dataIdxList g.n p).length := by
    unfold writeBalance
    refine hgen _ _ 0 ?_
    intro b i hi
    have hmi := hmem i hi
    have hri : req i = (0, g.strip) := hreq i hmi.1 hmi.2
    simp [hri, hpar, hs]
  have hkind : writeKind g p (raid5_get_data_chunk p 0) (raid5_get_data_chunk p (g.n - 2))
      req = WriteKind.rcw := by
    unfold writeKind
    have hnp : ¬ writeBalance g p (raid5_get_data_chunk p 0)
        (raid5_get_data_chunk p (g.n - 2)) req > 0 := by
      rw [hbal]; omega
    rw [if_neg hnp]
  have hpre : ∀ i, i < g.n →
      (writePreread g p (raid5_get_data_chunk p 0) (raid5_get_data_chunk p (g.n - 2)) req i).2
        = 0 := by
    intro i hi
    unfold writePreread
    rw [hkind]
    by_cases hip : i = p
    · simp [hip]
    · have hri : req i = (0, g.strip) := hreq i hi hip
      simp [hip, hfl, hri]
  have hrem : writeRemaining g p (raid5_get_data_chunk p 0) (raid5_get_data_chunk p (g.n - 2))
      req = 0 := by
    unfold writeRemaining
    rw [List.length_eq_zero, List.filter_eq_nil_iff]
    intro a ha
    simp [hpre a (List.mem_range.mp ha)]
  refine ⟨hkind, hpre, hrem, ?_⟩
  unfold writeInlineCompute
  rw [hrem]
  rfl

/-- Witness for `full_stripe_write_rcw_inline` with `N = 3`,
`strip_size = 4`, stripe 0 (parity at position 2) and both data chunks fully
written. -/
theorem full_stripe_write_rcw_inline_witness :
    writeKind ⟨3, 4, 512⟩ 2 (raid5_get_data_chunk 2 0) (raid5_get_data_chunk 2 1)
      (fun i => if i = 2 then (0, 0) else (0, 4)) = WriteKind.rcw ∧
    (∀ i, i < 3 →
      (writePreread ⟨3, 4, 512⟩ 2 (raid5_get_data_chunk 2 0) (raid5_get_data_chunk 2 1)
        (fun i => if i = 2 then (0, 0) else (0, 4)) i).2 = 0) ∧
    writeRemaining ⟨3, 4, 512⟩ 2 (raid5_get_data_chunk 2 0) (raid5_get_data_chunk 2 1)
      (fun i => if i = 2 then (0, 0) else (0, 4)) = 0 ∧
    writeInlineCompute ⟨3, 4, 512⟩ 2 (raid5_get_data_chunk 2 0) (raid5_get_data_chunk 2 1)
      (fun i => if i = 2 then (0, 0) else (0, 4)) = true :=
  full_stripe_write_rcw_inline ⟨3, 4, 512⟩ 2 (fun i => if i = 2 then (0, 0) else (0, 4))
    (by norm_num) (by norm_num) (by norm_num) (by decide)

/-- C6: a WRITE whose block count is smaller than `strip_size` and whose
range straddles a strip boundary is split by `raid5_handle_stripe` into
exactly two sub-requests: the first covering the
`strip_size - (stripe_offset mod strip_size)` blocks up to the boundary, the
second covering the remainder with `iov_offset` advanced by the first part's
byte length; each part is built into its own stripe request and enqueued
separately. -/
theorem handle_stripe_write_split (g : Geom) (remaining stripe_offset blocks iov_offset : Nat)
    (hrem : remaining = blocks) (hlt : blocks < g.strip)
    (hstrad : g.strip < stripe_offset % g.strip + blocks) :
    raid5_handle_stripe_parts g remaining true stripe_offset blocks iov_offset =
      [(stripe_offset, g.strip - stripe_offset % g.strip, iov_offset),
       (stripe_offset + (g.strip - stripe_offset % g.strip),
        blocks - (g.strip - stripe_offset % g.strip),
        iov_offset + (g.strip - stripe_offset % g.strip) * g.blocklen)] := by
  have hpos : 0 < g.strip := by omega
  have hmod : stripe_offset % g.strip < g.strip := Nat.mod_lt _ hpos
  have hlim : g.strip - stripe_offset % g.strip < blocks := by omega
  have hneg : ¬(remaining = g.strip - stripe_offset % g.strip ∧ true = true ∧
      g.strip - stripe_offset % g.strip < g.strip ∧
      g.strip - stripe_offset % g.strip < g.strip - stripe_offset % g.strip) := by
    rintro ⟨-, -, -, h4⟩
    omega
  unfold raid5_handle_stripe_parts
  rw [dif_pos ⟨hrem, rfl, hlt, hlim⟩]
  unfold raid5_handle_stripe_parts
  rw [dif_neg hneg]
  rfl

/-- Witness for `handle_stripe_write_split`: with `strip_size = 4` and a
fresh 2-block write at stripe offset 3, the parts are `(3, 1, 0)` and
`(4, 1, 512)`. -/
theorem handle_stripe_write_split_witness :
    raid5_handle_stripe_parts ⟨3, 4, 512⟩ 2 true 3 2 0 = [(3, 1, 0), (4, 1, 512)] := by
  have h := handle_stripe_write_split ⟨3, 4, 512⟩ 2 3 2 0 rfl (by norm_num) (by norm_num)
  simpa using h

/-- C7: when stripe acquisition fails, the raid_io's wait entry is appended
to the channel retry queue and nothing is completed upstream (in particular
no failure status is reported); at a later completion event the queued waiter
is popped and resubmitted. -/
theorem stripe_acquire_fail_queues_and_retries (rq tl : List Nat) (io w : Nat) :
    raid5_submit_rw_acquire none rq io = ⟨rq ++ [io], none, false⟩ ∧
    raid5_complete_release_retry true (w :: tl) = (tl, some w) ∧
    raid5_complete_release_retry true (raid5_submit_rw_acquire none [] io).retry_queue =
      ([], some io) := by
  refine ⟨rfl, ?_, ?_⟩ <;>
    simp [raid5_complete_release_retry, raid5_io_channel_retry_request,
      raid5_submit_rw_acquire]

/-- Helper: one-step unfolding of `runChunkCompletions`. -/
theorem runChunkCompletions_cons (st : ChunkRunState) (e : Bool) (es : List Bool) :
    runChunkCompletions st (e :: es) =
      ((runChunkCompletions (raid5_complete_chunk_request_step e st).1 es).1,
       (raid5_complete_chunk_request_step e st).2 ::
         (runChunkCompletions (raid5_complete_chunk_request_step e st).1 es).2) := rfl

/-- Helper: a run of chunk completions with as many events as `remaining`
counts, where the status is already FAILED or some event fails, drains every
event, takes an action only at the last one, and that action is
`raid5_complete_stripe_request`, not the compute callback. -/
theorem runChunkCompletions_failure (events : List Bool) :
    ∀ st : ChunkRunState, st.remaining = events.length → events ≠ [] →
      (st.status = IoStatus.failed ∨ false ∈ events) →
      (runChunkCompletions st events).1.status = IoStatus.failed ∧
      (runChunkCompletions st events).1.remaining = 0 ∧
      (runChunkCompletions st events).2 =
        List.replicate (events.length - 1) ChunkAction.noAction ++
          [ChunkAction.completeStripe] := by
  induction events with
  | nil => intro st _ hne _; exact absurd rfl hne
  | cons e es ih =>
    intro st hrem hne hf
    cases es with
    | nil =>
      have h1 : st.remaining = 1 := by simpa using hrem
      cases e with
      | false =>
        simp [runChunkCompletions, raid5_complete_chunk_request_step, h1]
      | true =>
        have hst : st.status = IoStatus.failed := by
          rcases hf with h | h
          · exact h
          · simp at h
        simp [runChunkCompletions, raid5_complete_chunk_request_step, h1, hst]
    | cons e2 es2 =>
      have h2 : st.remaining - 1 ≠ 0 := by
        simp only [List.length_cons] at hrem; omega
      have hstep : raid5_complete_chunk_request_step e st =
          (⟨st.remaining - 1, if e = true then st.status else IoStatus.failed⟩,
            ChunkAction.noAction) := by
        unfold raid5_complete_chunk_request_step
        cases e <;> simp [h2]
      have hrec := ih ⟨st.remaining - 1, if e = true then st.status else IoStatus.failed⟩
        (by simp only [List.length_cons] at hrem ⊢; omega)
        (by simp)
        (by
          rcases hf with h | h
          · left; cases e <;> simp [h]
          · rcases List.mem_cons.mp h with h | h
            · left; rw [← h]; simp
            · right; exact h)
      rw [runChunkCompletions_cons, hstep]
      dsimp only
      refine ⟨hrec.1, hrec.2.1, ?_⟩
      rw [hrec.2.2]
      simp [List.replicate_succ]

/-- C8: when any chunk I/O of a stripe request fails, the request status is
latched to FAILED but completion still waits until every sibling chunk I/O
has completed (`remaining` reaches zero); no action is taken before the last
completion, and at the last one the planned compute callback is skipped and
`raid5_complete_stripe_request` completes the request upstream with FAILED. -/
theorem chunk_failure_latched (events : List Bool) (st : ChunkRunState)
    (hrem : st.remaining = events.length) (hsuc : st.status = IoStatus.success)
    (hf : false ∈ events) :
    (runChunkCompletions st events).1.status = IoStatus.failed ∧
    (runChunkCompletions st events).1.remaining = 0 ∧
    (runChunkCompletions st events).2 =
      List.replicate (events.length - 1) ChunkAction.noAction ++
        [ChunkAction.completeStripe] :=
  runChunkCompletions_failure events st hrem (by rintro rfl; simp at hf) (Or.inr hf)

/-- Pointwise value of `xorRange`. -/
theorem xorRange_apply (dst : Buf) (dstOff : Nat) (src : Buf) (srcOff len i : Nat) :
    xorRange dst dstOff src srcOff len i =
      if dstOff ≤ i ∧ i < dstOff + len then
        dst i ^^^ src (srcOff + (i - dstOff))
      else dst i := rfl

/-- Pointwise effect of one guarded `raid5_xor_iovs` call whose source is a
window of the on-disk data `f` read into a scratch buffer at position 0. -/
theorem xorRange_window_apply (pb : Buf) (pOff off len : Nat) (f : Buf) (i : Nat)
    (h : pOff ≤ off) :
    (if 0 < len then xorRange pb (off - pOff) (fun j => f (off + j)) 0 len else pb) i =
      pb i ^^^
        (if off ≤ pOff + i ∧ pOff + i < off + len then f (pOff + i) else 0) := by
  by_cases hl : 0 < len
  · rw [if_pos hl]
    by_cases hin : off ≤ pOff + i ∧ pOff + i < off + len
    · rw [if_pos hin]
      have hcond : off - pOff ≤ i ∧ i < (off - pOff) + len := by omega
      rw [xorRange_apply, if_pos hcond]
      congr 1
      show f (off + (0 + (i - (off - pOff)))) = f (pOff + i)
      congr 1
      omega
    · rw [if_neg hin]
      have hcond : ¬(off - pOff ≤ i ∧ i < (off - pOff) + len) := by omega
      rw [xorRange_apply, if_neg hcond, Nat.xor_zero]
  · rw [if_neg hl, if_neg (by omega), Nat.xor_zero]

/-- Pointwise effect of one guarded `raid5_xor_iovs` call whose source is the
mapped user data `f` (indexed from 0). -/
theorem xorRange_newdata_apply (pb : Buf) (pOff off len : Nat) (f : Buf) (i : Nat)
    (h : pOff ≤ off) :
    (if 0 < len then xorRange pb (off - pOff) f 0 len else pb) i =
      pb i ^^^
        (if off ≤ pOff + i ∧ pOff + i < off + len then f (pOff + i - off) else 0) := by
  by_cases hl : 0 < len
  · rw [if_pos hl]
    by_cases hin : off ≤ pOff + i ∧ pOff + i < off + len
    · rw [if_pos hin]
      have hcond : off - pOff ≤ i ∧ i < (off - pOff) + len := by omega
      rw [xorRange_apply, if_pos hcond]
      congr 1
      show f (0 + (i - (off - pOff))) = f (pOff + i - off)
      congr 1
      omega
    · rw [if_neg hin]
      have hcond : ¬(off - pOff ≤ i ∧ i < (off - pOff) + len) := by omega
      rw [xorRange_apply, if_neg hcond, Nat.xor_zero]
  · rw [if_neg hl, if_neg (by omega), Nat.xor_zero]

/-- Pointwise value of one RMW chunk step. -/
theorem rmwChunk_apply (pOff : Nat) (pb : Buf) (c : DataChunk) (i : Nat)
    (hro : pOff ≤ c.req_offset) :
    rmwChunk pOff pb c i = pb i ^^^ rmwDelta c (pOff + i) := by
  unfold rmwChunk rmwDelta
  by_cases h0 : c.req_blocks = 0
  · rw [if_pos h0, if_neg (by unfold inReq; omega), Nat.xor_zero]
  · rw [if_neg h0]
    have h1 := xorRange_window_apply pb pOff c.req_offset c.req_blocks c.oldData i hro
    rw [if_pos (by omega : 0 < c.req_blocks)] at h1
    have h2 := xorRange_newdata_apply
      (xorRange pb (c.req_offset - pOff)
        (fun j => c.oldData (c.req_offset + j)) 0 c.req_blocks)
      pOff c.req_offset c.req_blocks c.newData i hro
    rw [if_pos (by omega : 0 < c.req_blocks)] at h2
    rw [h2, h1]
    unfold inReq
    by_cases hin : c.req_offset ≤ pOff + i ∧ pOff + i < c.req_offset + c.req_blocks
    · rw [if_pos hin, if_pos hin, if_pos hin, Nat.xor_assoc]
    · rw [if_neg hin, if_neg hin, if_neg hin, Nat.xor_zero, Nat.xor_zero]

/-- Pointwise value of one RCW chunk step. -/
theorem rcwChunk_apply (pOff : Nat) (pb : Buf) (c : DataChunk) (i : Nat)
    (hro : pOff ≤ c.req_offset) (hpo : pOff ≤ c.preread_offset) :
    rcwChunk pOff pb c i = pb i ^^^ rcwContrib c (pOff + i) := by
  unfold rcwChunk rcwContrib
  rw [xorRange_newdata_apply _ pOff c.req_offset c.req_blocks c.newData i hro,
    xorRange_window_apply pb pOff c.preread_offset c.preread_blocks c.oldData i hpo]
  unfold inReq inPre
  rw [Nat.xor_assoc]

/-- Folding XOR over a list starting from `a` equals `a` XOR the fold from
zero. -/
theorem foldl_xor_init {α : Type} (f : α → Nat) (l : List α) (a : Nat) :
    l.foldl (fun acc c => acc ^^^ f c) a =
      a ^^^ (l.foldl (fun acc c => acc ^^^ f c) 0) := by
  induction l generalizing a with
  | nil => simp
  | cons x xs ih =>
    rw [List.foldl_cons, List.foldl_cons, ih (a ^^^ f x), ih (0 ^^^ f x),
      Nat.zero_xor, Nat.xor_assoc]

/-- Each chunk's final contents are its old contents XOR its RMW delta. -/
theorem finalData_eq_old_xor_delta (c : DataChunk) (x : Nat) :
    finalData c x = c.oldData x ^^^ rmwDelta c x := by
  unfold finalData rmwDelta
  by_cases h : inReq c x
  · rw [if_pos h, if_pos h, ← Nat.xor_assoc, Nat.xor_self, Nat.zero_xor]
  · rw [if_neg h, if_neg h, Nat.xor_zero]

/-- Pointwise value of the whole RMW compute phase: the preread parity XOR
the fold of the per-chunk deltas. -/
theorem rmwCompute_apply (pOff : Nat) (cs : List DataChunk) (pb : Buf) (i : Nat)
    (hro : ∀ c ∈ cs, pOff ≤ c.req_offset) :
    rmwCompute pOff cs pb i = pb i ^^^ rmwDeltaFold cs (pOff + i) := by
  induction cs generalizing pb with
  | nil => unfold rmwCompute rmwDeltaFold; simp
  | cons c cs ih =>
    have hcons : rmwCompute pOff (c :: cs) pb = rmwCompute pOff cs (rmwChunk pOff pb c) := by
      unfold rmwCompute
      rw [List.foldl_cons]
    rw [hcons, ih _ (fun d hd => hro d (List.mem_cons_of_mem c hd)),
      rmwChunk_apply pOff pb c i (hro c (List.mem_cons_self c cs))]
    have hfold : rmwDeltaFold (c :: cs) (pOff + i) =
        rmwDelta c (pOff + i) ^^^ rmwDeltaFold cs (pOff + i) := by
      unfold rmwDeltaFold
      rw [List.foldl_cons, foldl_xor_init, Nat.zero_xor]
    rw [hfold, Nat.xor_assoc]

/-- The XOR of final data contents splits into old contents XOR deltas. -/
theorem xorFinalData_eq (cs : List DataChunk) (x : Nat) :
    xorFinalData cs x = xorOldData cs x ^^^ rmwDeltaFold cs x := by
  induction cs with
  | nil => unfold xorFinalData xorOldData rmwDeltaFold; simp
  | cons c cs ih =>
    have h1 : xorFinalData (c :: cs) x = finalData c x ^^^ xorFinalData cs x := by
      unfold xorFinalData
      rw [List.foldl_cons, foldl_xor_init, Nat.zero_xor]
    have h2 : xorOldData (c :: cs) x = c.oldData x ^^^ xorOldData cs x := by
      unfold xorOldData
      rw [List.foldl_cons, foldl_xor_init, Nat.zero_xor]
    have h3 : rmwDeltaFold (c :: cs) x = rmwDelta c x ^^^ rmwDeltaFold cs x := by
      unfold rmwDeltaFold
      rw [List.foldl_cons, foldl_xor_init, Nat.zero_xor]
    rw [h1, h2, h3, ih, finalData_eq_old_xor_delta, Nat.xor_assoc, Nat.xor_assoc]
    congr 1
    rw [← Nat.xor_assoc, Nat.xor_comm (rmwDelta c x) (xorOldData cs x), Nat.xor_assoc]

/-- Pointwise value of the whole RCW compute phase: the fold of the
per-chunk contributions. -/
theorem rcwCompute_apply (pOff : Nat) (cs : List DataChunk) (i : Nat)
    (h : ∀ c ∈ cs, pOff ≤ c.req_offset ∧ pOff ≤ c.preread_offset) :
    rcwCompute pOff cs i = rcwContribFold cs (pOff + i) := by
  have main : ∀ (l : List DataChunk) (pb : Buf),
      (∀ c ∈ l, pOff ≤ c.req_offset ∧ pOff ≤ c.preread_offset) →
      l.foldl (rcwChunk pOff) pb i = pb i ^^^ rcwContribFold l (pOff + i) := by
    intro l
    induction l with
    | nil => intro pb _; unfold rcwContribFold; simp
    | cons c cs ih =>
      intro pb hl
      rw [List.foldl_cons, ih _ (fun d hd => hl d (List.mem_cons_of_mem c hd)),
        rcwChunk_apply pOff pb c i (hl c (List.mem_cons_self c cs)).1
          (hl c (List.mem_cons_self c cs)).2]
      have h3 : rcwContribFold (c :: cs) (pOff + i) =
          rcwContrib c (pOff + i) ^^^ rcwContribFold cs (pOff + i) := by
        unfold rcwContribFold
        rw [List.foldl_cons, foldl_xor_init, Nat.zero_xor]
      rw [h3, Nat.xor_assoc]
  unfold rcwCompute
  rw [main cs zeroBuf h]
  simp [zeroBuf]

/-- A chunk whose preread and request windows cover a strip offset exactly
once contributes its final contents there. -/
theorem rcwContrib_eq_finalData (c : DataChunk) (x : Nat)
    (hcov : (inReq c x ∧ ¬ inPre c x) ∨ (inPre c x ∧ ¬ inReq c x)) :
    rcwContrib c x = finalData c x := by
  unfold rcwContrib finalData
  rcases hcov with ⟨h1, h2⟩ | ⟨h1, h2⟩
  · rw [if_neg h2, if_pos h1, if_pos h1, Nat.zero_xor]
  · rw [if_pos h1, if_neg h2, if_neg h2, Nat.xor_zero]

/-- Under exactly-once coverage the RCW contributions fold to the XOR of the
final data contents. -/
theorem rcwContribFold_eq_xorFinalData (cs : List DataChunk) (x : Nat)
    (hcov : ∀ c ∈ cs, (inReq c x ∧ ¬ inPre c x) ∨ (inPre c x ∧ ¬ inReq c x)) :
    rcwContribFold cs x = xorFinalData cs x := by
  unfold rcwContribFold xorFinalData
  apply List.foldl_ext
  intro a c hc
  rw [rcwContrib_eq_finalData c x (hcov c hc)]

/-- C1: for a non-degraded write stripe request over parity window
`[pOff, pOff + pBlocks)`, after the compute phase the parity buffer (position
`i` for strip offset `pOff + i`) equals the bytewise XOR of the final
post-write contents of all data chunks at that offset — for RMW provided the
preread parity was consistent (`pb i` equal to the XOR of the old data), and
for RCW provided each data chunk's request and preread windows cover every
offset of the parity window exactly once (which the planning loop of
`raid5_stripe_write` guarantees). -/
theorem write_parity_window_correct (pOff pBlocks : Nat) (cs : List DataChunk) (pb : Buf)
    (hro : ∀ c ∈ cs, pOff ≤ c.req_offset)
    (hpo : ∀ c ∈ cs, pOff ≤ c.preread_offset)
    (hcov : ∀ c ∈ cs, ∀ x, x < pOff + pBlocks → pOff ≤ x →
      (inReq c x ∧ ¬ inPre c x) ∨ (inPre c x ∧ ¬ inReq c x))
    (hparity : ∀ i, i < pBlocks → pb i = xorOldData cs (pOff + i)) :
    ∀ i, i < pBlocks →
      rmwCompute pOff cs pb i = xorFinalData cs (pOff + i) ∧
      rcwCompute pOff cs i = xorFinalData cs (pOff + i) := by
  intro i hi
  constructor
  · rw [rmwCompute_apply pOff cs pb i hro, hparity i hi, xorFinalData_eq]
  · rw [rcwCompute_apply pOff cs i (fun c hc => ⟨hro c hc, hpo c hc⟩),
      rcwContribFold_eq_xorFinalData]
    intro c hc
    exact hcov c hc (pOff + i) (by omega) (by omega)

/-- Concrete data chunks used to instantiate the parity theorem: chunk 0
writes block 0 of a 2-block window and prereads block 1; chunk 1 is untouched
and prereads both blocks. -/
def witnessChunks : List DataChunk :=
  [⟨0, 1, 1, 1, fun x => x + 1, fun j => 5 + j⟩,
   ⟨0, 0, 0, 2, fun x => 7 + x, fun _ => 0⟩]

/-- Preread parity buffer consistent with the old contents of
`witnessChunks`. -/
def witnessParityBuf : Buf := fun i => (0 ^^^ (i + 1)) ^^^ (7 + i)

/-- Witness for `write_parity_window_correct` on `witnessChunks` over the
window `[0, 2)`, at window position 0. -/
theorem write_parity_window_correct_witness :
    rmwCompute 0 witnessChunks witnessParityBuf 0 = xorFinalData witnessChunks (0 + 0) ∧
    rcwCompute 0 witnessChunks 0 = xorFinalData witnessChunks (0 + 0) :=
  write_parity_window_correct 0 2 witnessChunks witnessParityBuf
    (by decide) (by decide) (by decide) (by decide) 0 (by decide)

/-- Witness for `chunk_failure_latched`: three chunk I/Os, the second of
which fails. -/
theorem chunk_failure_latched_witness :
    (runChunkCompletions ⟨3, IoStatus.success⟩ [true, false, true]).1.status =
      IoStatus.failed ∧
    (runChunkCompletions ⟨3, IoStatus.success⟩ [true, false, true]).1.remaining = 0 ∧
    (runChunkCompletions ⟨3, IoStatus.success⟩ [true, false, true]).2 =
      List.replicate ([true, false, true].length - 1) ChunkAction.noAction ++
        [ChunkAction.completeStripe] :=
  chunk_failure_latched [true, false, true] ⟨3, IoStatus.success⟩ rfl rfl (by decide)

end Raid5
